import Mathlib

/-!
Verification of the FunSQL query-compiler (funsql-python) against its
specification.  The Python sources are shallowly embedded: `Symbol` objects
(interned strings) become `String`, Python dicts become insertion-ordered
association lists, mutation becomes explicit state passing, and raised
exceptions become `Except` errors that carry the state at the moment of the
raise (so that post-error state can be observed, as a caller catching the
exception would).
-/

namespace FunSQL

/-- Python `Symbol` (common.py): an interned string; equality on symbols
coincides with equality of the underlying text. -/
abbrev Symbol := String

/-- Python literal values that occur in `LIT` clauses and comparisons. -/
inductive PyVal where
  | none
  | bool (b : Bool)
  | int (i : Int)
  | str (s : String)
  deriving DecidableEq, Repr

/-- `d.get(k, default)` / `k in d` for a Python dict modelled as an
insertion-ordered association list. -/
def dict_get [DecidableEq κ] (d : List (κ × α)) (k : κ) : Option α :=
  match d with
  | [] => Option.none
  | (k', v) :: rest => if k' = k then some v else dict_get rest k

/-- `d[k] = v` on a Python dict: replace in place if the key exists
(keeping its position), else append at the end. -/
def dict_set [DecidableEq κ] (d : List (κ × α)) (k : κ) (v : α) : List (κ × α) :=
  match d with
  | [] => [(k, v)]
  | (k', v') :: rest => if k' = k then (k', v) :: rest else (k', v') :: dict_set rest k v

/-- Python `{**old, **more}`: a copy of `old` updated with every entry of
`more` in order. -/
def dict_merge [DecidableEq κ] (old more : List (κ × α)) : List (κ × α) :=
  more.foldl (fun d kv => dict_set d kv.1 kv.2) old

/-- `e` is an error (a raised Python exception). -/
def exceptIsError : Except ε α → Bool
  | .error _ => true
  | .ok _ => false

/-- Decimal digit character, `0 ↦ '0'`, …, `9 ↦ '9'`. -/
def digitChar (n : Nat) : Char := Char.ofNat (48 + n)

/-- Python `str(n)` / `f"{n}"` for a natural number: standard decimal
notation, most significant digit first. -/
def decimalRepr (n : Nat) : String :=
  if n = 0 then "0" else String.mk (((Nat.digits 10 n).map digitChar).reverse)

/-- Python `str(i)` / `f"{i}"` for an `int`: optional minus sign followed by
the decimal digits. -/
def intRepr (i : Int) : String :=
  if i < 0 then "-" ++ decimalRepr i.natAbs else decimalRepr i.natAbs

-- ---------------------------------------------------------------------
-- sqlcontext.py: dialect configuration
-- ---------------------------------------------------------------------

/-- `VarStyle` enum (sqlcontext.py). -/
inductive VarStyle where
  | NAMED
  | NUMBERED
  | POSITIONAL
  deriving DecidableEq, Repr

/-- `LimitStyle` enum exactly as defined in sqlcontext.py lines 122-124:
its only members are `REGULAR` and `FETCH_FIRST_KIND`. -/
inductive LimitStyle where
  | REGULAR
  | FETCH_FIRST_KIND
  deriving DecidableEq, Repr

/-- Python attribute access `LimitStyle.<member>` on the enum class:
returns the member when it exists and fails (AttributeError) otherwise.
`LimitStyle.MYSQL` and `LimitStyle.SQLITE`, referenced by
`LIMIT._serialize` (clausedefs.py) and by `dialect_mysql`/`dialect_sqlite`
(tools/dialects.py), are not members. -/
def LimitStyle.getMember (attr : String) : Option LimitStyle :=
  if attr = "REGULAR" then some .REGULAR
  else if attr = "FETCH_FIRST_KIND" then some .FETCH_FIRST_KIND
  else Option.none

/-- Python exceptions raised by the embedded code. -/
inductive PyError where
  | attributeError (attr : String)
  | errDuplicateLabel (name : Symbol)
  | errIllFormed
  | errReference (name : Symbol)
  deriving DecidableEq, Repr

/-- `SQLDialect` (sqlcontext.py).  Field defaults mirror the dataclass
defaults.  (`var_prefix`, `values_column_prefix` and
`has_recursive_annotation` are shortened to `var_pfx`, `values_column_pfx`
and `has_recursive_annot` here.) -/
structure SQLDialect where
  name : String := "default"
  var_style : VarStyle := .NAMED
  var_pfx : String := "?"
  id_quotes : String × String := ("\"", "\"")
  has_bool_literals : Bool := true
  limit_style : LimitStyle := .REGULAR
  has_recursive_annot : Bool := true
  has_as_columns : Bool := true
  has_datetime_types : Bool := true
  values_row_constructor : Option String := Option.none
  values_column_pfx : Option String := some "column"
  values_column_index : Int := 1
  deriving DecidableEq, Repr

/-- `dialect_postgres` (render.py): the default dialect with numbered `$n`
variables. -/
def dialect_postgres : SQLDialect :=
  { name := "postgresql", var_style := .NUMBERED, var_pfx := "$" }

/-- `dialect_mysql` (tools/dialects.py): evaluating the call expression
`LimitStyle.MYSQL` in its body raises AttributeError, because the enum has
no such member. -/
def dialect_mysql : Except PyError SQLDialect := do
  let style ← match LimitStyle.getMember "MYSQL" with
    | some v => Except.ok v
    | Option.none => Except.error (.attributeError "MYSQL")
  Except.ok { name := "mysql", var_style := .POSITIONAL, var_pfx := "?",
              id_quotes := ("`", "`"), limit_style := style,
              values_row_constructor := some "ROW",
              values_column_pfx := some "column_", values_column_index := 0 }

/-- `dialect_sqlite` (tools/dialects.py): evaluating `LimitStyle.SQLITE`
raises AttributeError. -/
def dialect_sqlite : Except PyError SQLDialect := do
  let style ← match LimitStyle.getMember "SQLITE" with
    | some v => Except.ok v
    | Option.none => Except.error (.attributeError "SQLITE")
  Except.ok { name := "sqlite", var_style := .NUMBERED, var_pfx := "?",
              limit_style := style, has_as_columns := false,
              has_datetime_types := false }

-- ---------------------------------------------------------------------
-- compiler/serialize.py: SerializationContext
-- ---------------------------------------------------------------------

/-- `SerializationContext` (compiler/serialize.py): the dialect, the text
buffer, the indentation level and the collected bind-variable names. -/
structure SerializationContext where
  dialect : SQLDialect
  buffer : String := ""
  level : Nat := 0
  nested : Bool := false
  variables_ : List Symbol := []
  deriving DecidableEq, Repr

/-- `SerializationContext.write`. -/
def SCtx.write (ctx : SerializationContext) (data : String) : SerializationContext :=
  { ctx with buffer := ctx.buffer ++ data }

/-- `SerializationContext.newline`: a newline followed by two spaces per
indentation level. -/
def SCtx.newline (ctx : SerializationContext) : SerializationContext :=
  SCtx.write ctx ("\n" ++ String.join (List.replicate ctx.level "  "))

-- ---------------------------------------------------------------------
-- clausedefs.py: LIMIT._serialize
-- ---------------------------------------------------------------------

/-- `LIMIT._serialize` (clausedefs.py lines 597-630), after the `over`
clause has been serialized into `ctx`.  The comparisons
`ctx.dialect.limit_style == LimitStyle.MYSQL` (line 603) and
`== LimitStyle.SQLITE` (line 611) first evaluate the attribute accesses
`LimitStyle.MYSQL` / `LimitStyle.SQLITE`; both raise AttributeError since
the enum defines neither member.  The branch bodies are translated
faithfully below even though they are unreachable. -/
def LIMIT_serialize (limit offset : Option Int) (with_ties : Bool)
    (ctx : SerializationContext) : Except PyError SerializationContext := do
  if offset = Option.none ∧ limit = Option.none then
    return ctx
  let mysql ← match LimitStyle.getMember "MYSQL" with
    | some v => Except.ok v
    | Option.none => Except.error (.attributeError "MYSQL")
  if ctx.dialect.limit_style = mysql then
    let ctx := SCtx.write (SCtx.newline ctx) "LIMIT "
    let ctx := match offset with
      | some o => SCtx.write ctx (intRepr o ++ ", ")
      | Option.none => ctx
    return SCtx.write ctx (match limit with
      | some l => intRepr l
      | Option.none => "18446744073709551615")
  let sqlite ← match LimitStyle.getMember "SQLITE" with
    | some v => Except.ok v
    | Option.none => Except.error (.attributeError "SQLITE")
  if ctx.dialect.limit_style = sqlite then
    let ctx := SCtx.write (SCtx.newline ctx) "LIMIT "
    let ctx := SCtx.write ctx (match limit with
      | some l => intRepr l
      | Option.none => "-1")
    return match offset with
      | some o => SCtx.write (SCtx.write (SCtx.newline ctx) "OFFSET ") (intRepr o)
      | Option.none => ctx
  else
    let ctx := match offset with
      | some o =>
        let c := SCtx.write (SCtx.write (SCtx.newline ctx) "OFFSET ") (intRepr o)
        SCtx.write c (if o = 1 then "ROW" else "ROWS")
      | Option.none => ctx
    return match limit with
      | some l =>
        let c := SCtx.newline ctx
        let c := SCtx.write c (if offset = Option.none then "FETCH FIRST " else "FETCH NEXT ")
        let c := SCtx.write c (intRepr l)
        let c := SCtx.write c (if l = 1 then " ROW" else " ROWS")
        SCtx.write c (if with_ties then " WITH TIES" else " ONLY")
      | Option.none => ctx

-- ---------------------------------------------------------------------
-- clausedefs.py: the clause tree (lexical SQL IR), fragment used by the
-- translate pass
-- ---------------------------------------------------------------------

/-- `ValueOrder` enum (clausedefs.py). -/
inductive ValueOrder where
  | ASC
  | DESC
  deriving DecidableEq, Repr

/-- `NullsOrder` enum (clausedefs.py). -/
inductive NullsOrder where
  | FIRST
  | LAST
  deriving DecidableEq, Repr

/-- `SelectTop` (clausedefs.py). -/
structure SelectTop where
  limit : Int
  with_ties : Bool := false
  deriving DecidableEq, Repr

/-- `SQLClause` objects (clausedefs.py), restricted to the constructors the
embedded compiler fragments build or inspect.  Fields follow the Python
classes; `*args` become explicit lists. -/
inductive SQLClause where
  | AGG (name : Symbol) (args : List SQLClause) (distinct : Bool)
        (filter_ : Option SQLClause) (over : Option SQLClause)
  | AS (name : Symbol) (columns : Option (List Symbol)) (over : Option SQLClause)
  | CASE (args : List SQLClause)
  | FROM (over : Option SQLClause)
  | FUN (name : Symbol) (args : List SQLClause)
  | ID (name : Symbol) (over : Option SQLClause)
  | KW (name : Symbol) (over : Option SQLClause)
  | LIT (val : PyVal)
  | OP (name : Symbol) (args : List SQLClause)
  | SELECT (args : List SQLClause) (distinct : Bool) (top : Option SelectTop)
           (over : Option SQLClause)
  | SORT (value : ValueOrder) (nulls : Option NullsOrder) (over : Option SQLClause)
  | UNION (args : List SQLClause) (all_ : Bool) (over : Option SQLClause)
  | VAR (name : Symbol)
  | WHERE (condition : SQLClause) (over : Option SQLClause)

/-- `isinstance(c, (SELECT, UNION))`. -/
def clause_is_select_union (c : SQLClause) : Bool :=
  match c with
  | .SELECT _ _ _ _ => true
  | .UNION _ _ _ => true
  | _ => false

/-- `isinstance(c, Lit)` where `Lit` is the *SQLNode* class from
nodedefs.py (not the clause class `LIT`).  The values this test is applied
to in `translate_node` (translate.py line 344) are results of `translate`,
which are always `SQLClause` objects; the `SQLNode` subclass `Lit` is a
different class hierarchy, so the test is always false. -/
def clause_isinstance_node_Lit (_ : SQLClause) : Bool := false

/-- `c.val`, defined only on `LIT` clauses; unreachable elsewhere (Python
would raise AttributeError, but every use below is short-circuited behind
`clause_isinstance_node_Lit`). -/
def clause_val (c : SQLClause) : PyVal :=
  match c with
  | .LIT v => v
  | _ => PyVal.none

/-- Python `str.upper()` (ASCII letters; the identifiers involved are
ASCII): uppercase every character. -/
def pyUpper (s : String) : String := String.mk (s.data.map Char.toUpper)

/-- Python `str.isalpha()`: non-empty and every character alphabetic. -/
def py_isalpha (s : String) : Bool := !s.isEmpty && s.toList.all Char.isAlpha

/-- `_FUNC_REPLACE` (translate.py): rename `==` to `=` and `!=` to `<>`,
leave everything else unchanged (`_FUNC_REPLACE.get(fn, fn)`). -/
def func_replace (fn : String) : String :=
  if fn = "==" then "=" else if fn = "!=" then "<>" else fn

-- ---------------------------------------------------------------------
-- nodedefs.py / compiler/annotate.py: scalar SQLNode objects, fragment
-- consumed by the scalar side of the translate pass
-- ---------------------------------------------------------------------

/-- Scalar `SQLNode` objects as they reach the translate pass (after the
annotate pass: `Agg` nodes have had their `over` chain stripped by
`rebind`).  These are a separate type from `SQLClause`, exactly as the
Python classes are separate hierarchies. -/
inductive SNode where
  | Lit (val : PyVal)
  | Var (name : Symbol)
  | Agg (name : Symbol) (args : List SNode) (distinct : Bool) (filter_ : Option SNode)
  | Fun (name : Symbol) (args : List SNode)
  | Sort (value : ValueOrder) (nulls : Option NullsOrder) (over : SNode)
  | As (name : Symbol) (over : SNode)

/-- `TranslateContext` (translate.py).  `cte_map` is omitted: the embedded
fragment covers scalar translation and alias allocation, which never read
it.  `subs` is keyed by node objects (Python object identity); the
embedded fragment only ever reads it, so it is modelled as a lookup
function. -/
structure TranslateContext where
  dialect : SQLDialect
  aliases : List (Symbol × Nat) := []
  recursive : Bool := false
  vars_ : List (Symbol × SQLClause) := []
  subs : SNode → Option SQLClause := fun _ => Option.none

mutual

/-- `translate` / `translate_node` (translate.py lines 260-419) for scalar
nodes: `translate` first consults `ctx.subs` and otherwise dispatches on
the node type; the per-type bodies of `translate_node` are inlined into the
dispatch below.  List arguments are translated element-wise
(`translate(node.args, ctx)`), so `len(node.args)` and the length of the
translated list agree. -/
def translate (node : SNode) (ctx : TranslateContext) : SQLClause :=
  match ctx.subs node with
  | some c => c
  | Option.none =>
    match node with
    | .Lit v => .LIT v
    | .Var name =>
      match dict_get ctx.vars_ name with
      | some c => c
      | Option.none => .VAR name
    | .Sort value nulls over => .SORT value nulls (some (translate over ctx))
    | .As _ over => translate over ctx
    | .Agg name args distinct filter_ =>
      if pyUpper name = "COUNT" then
        let targs := if args.length > 0 then translate_list args ctx else [.OP "*" []]
        .AGG "COUNT" targs distinct (translate_opt filter_ ctx) Option.none
      else
        .AGG (pyUpper name) (translate_list args ctx) distinct
             (translate_opt filter_ ctx) Option.none
    | .Fun name args =>
      let fn := pyUpper name
      if fn = "NOT" ∨ fn = "LIKE" ∨ fn = "EXISTS" ∨ fn = "=" ∨ fn = "==" ∨ fn = "!=" then
        .OP (func_replace fn) (translate_list args ctx)
      else if fn = "AND" ∨ fn = "OR" then
        -- default = True for AND, False for OR
        let dflt := fn = "AND"
        let targs := translate_list args ctx
        match targs with
        | [] => .LIT (.bool dflt)
        | [a] => a
        | a :: b :: rest =>
          if (a :: b :: rest).length = 2 ∧ clause_isinstance_node_Lit a
              ∧ clause_val a = PyVal.bool dflt then
            b
          else
            -- merge nested AND/OR
            match a with
            | .OP n nargs =>
              if n = fn then .OP n (nargs ++ b :: rest) else .OP fn (a :: b :: rest)
            | _ => .OP fn (a :: b :: rest)
      else if fn = "IN" ∨ fn = "NOT IN" then
        let dflt := !(fn = "IN")
        if args.length ≤ 1 then .LIT (.bool dflt)
        else
          match translate_list args ctx with
          | a :: b :: rest =>
            if rest.isEmpty ∧ clause_is_select_union b then .OP fn [a, b]
            else .OP fn [a, .FUN "_" (b :: rest)]
          | targs => .OP fn targs  -- unreachable: len(node.args) ≥ 2 here
      else if fn = "IS NULL" ∨ fn = "IS NOT NULL" then
        -- the trailing Python `None` argument is cast to the NULL literal
        .OP (if fn = "IS NULL" then "IS" else "IS NOT")
           (translate_list args ctx ++ [.LIT PyVal.none])
      else if fn = "CASE" then
        .CASE (translate_list args ctx)
      else if fn = "CAST" then
        match translate_list args ctx with
        | [a, .LIT (.str s)] => .FUN "CAST" [a, .KW "AS" (some (.OP s []))]
        | targs => .FUN "CAST" targs
      else if fn = "EXTRACT" then
        match translate_list args ctx with
        | [.LIT (.str s), b] => .FUN "EXTRACT" [.OP s [], .KW "FROM" (some b)]
        | targs => .FUN "EXTRACT" targs
      else if (fn = "BETWEEN" ∨ fn = "NOT BETWEEN") ∧ args.length = 3 then
        match translate_list args ctx with
        | [a, b, c] => .OP fn [a, b, .KW "AND" (some c)]
        | targs => .OP fn targs  -- unreachable: the list has exactly 3 elements
      else if (fn = "CURRENT_DATE" ∨ fn = "CURRENT_TIMESTAMP") ∧ args.length = 0 then
        .OP fn []
      else
        -- default logic
        let targs := translate_list args ctx
        if py_isalpha fn then .FUN fn targs else .OP fn targs

def translate_list (nodes : List SNode) (ctx : TranslateContext) : List SQLClause :=
  match nodes with
  | [] => []
  | n :: rest => translate n ctx :: translate_list rest ctx

def translate_opt (node : Option SNode) (ctx : TranslateContext) : Option SQLClause :=
  match node with
  | Option.none => Option.none
  | some n => some (translate n ctx)

end

-- ---------------------------------------------------------------------
-- translate.py: Assemblage and the SELECT-list builder
-- ---------------------------------------------------------------------

/-- `Assemblage` (translate.py): a partially constructed SQL query.  `ν` is
the type of the referenced IR nodes (`repl` keys). -/
structure Assemblage (ν : Type) where
  clause : Option SQLClause
  cols : List (Symbol × SQLClause) := []
  repl : List (ν × Symbol) := []

/-- The "already a legit SELECT arg" test of `cols_to_select_args`
(translate.py line 86): `isinstance(clause, ID) and clause.name == name`. -/
def col_is_select_arg (name : Symbol) (clause : SQLClause) : Bool :=
  match clause with
  | .ID n _ => n = name
  | _ => false

/-- `cols_to_select_args` (translate.py lines 79-91): alias each column
unless it is already an `ID` with the right name; an empty column map
yields the single argument `LIT(None)` (the SQL `NULL` literal). -/
def cols_to_select_args (cols : List (Symbol × SQLClause)) : List SQLClause :=
  let args := cols.map fun nc =>
    if col_is_select_arg nc.1 nc.2 then nc.2 else .AS nc.1 Option.none (some nc.2)
  if args.isEmpty then [.LIT PyVal.none] else args

/-- `Assemblage.get_complete_select` (translate.py lines 44-52): return the
clause unchanged when it already is a `SELECT`/`UNION`, else wrap it in a
`SELECT` whose arguments come from `cols_to_select_args`. -/
def get_complete_select (a : Assemblage ν) : SQLClause :=
  match a.clause with
  | some c =>
    if clause_is_select_union c then c
    else .SELECT (cols_to_select_args a.cols) false Option.none (some c)
  | Option.none => .SELECT (cols_to_select_args a.cols) false Option.none Option.none

-- ---------------------------------------------------------------------
-- translate.py: alias allocation
-- ---------------------------------------------------------------------

/-- `TranslateContext.allocate_alias` (translate.py lines 199-209) from the
base name (a `SQLNode` argument first has `node.typ.name` extracted; the
counter mechanics below are identical for both input kinds):
`n = aliases.get(alias, 0) + 1; aliases[alias] = n; return S(f"{alias}_{n}")`. -/
def allocate_alias (ctx : TranslateContext) (base : Symbol) : Symbol × TranslateContext :=
  let n := (dict_get ctx.aliases base).getD 0 + 1
  (base ++ "_" ++ decimalRepr n, { ctx with aliases := dict_set ctx.aliases base n })

/-- The sequence of aliases produced by consecutive `allocate_alias` calls
on the given base names, threading the context. -/
def allocate_alias_trace (ctx : TranslateContext) : List Symbol → List Symbol
  | [] => []
  | a :: rest =>
    let r := allocate_alias ctx a
    r.1 :: allocate_alias_trace r.2 rest

-- ---------------------------------------------------------------------
-- translate.py / annotate.py: the two context-extending scopes
-- ---------------------------------------------------------------------

/-- `AnnotateContext` (compiler/annotate.py), reduced to the CTE stack the
scope under study manipulates; everything else the annotate pass mutates
(path map, handle table, boxes) is an opaque `payload` the body may change
freely.  CTE values (annotated nodes) are identified by `ι`. -/
structure AnnotateCtx (ι : Type) (π : Type) where
  cte_nodes : List (Symbol × ι) := []
  payload : π

/-- `AnnotateContext.extend_cte_nodes` (annotate.py lines 542-550).  The
`@contextmanager` generator has no `try/finally`: the restoring assignment
after the `yield` runs only when the body returns normally; when the body
raises, the exception is thrown into the generator and propagates, leaving
`cte_nodes` extended. -/
def extend_cte_nodes (ctx : AnnotateCtx ι π) (more_nodes : List (Symbol × ι))
    (body : AnnotateCtx ι π → Except (PyError × AnnotateCtx ι π) (α × AnnotateCtx ι π)) :
    Except (PyError × AnnotateCtx ι π) (α × AnnotateCtx ι π) :=
  let old_nodes := ctx.cte_nodes
  let ctx := { ctx with cte_nodes := dict_merge old_nodes more_nodes }
  match body ctx with
  | .ok (a, ctx2) => .ok (a, { ctx2 with cte_nodes := old_nodes })
  | .error e => .error e

/-- `TranslateContext.substitute_vars_n_subs` (translate.py lines 179-197):
a `try/finally` restores `vars_` and `subs` on the normal exit and on the
exception exit alike. -/
def substitute_vars_n_subs (ctx : TranslateContext)
    (vars_q : Option (List (Symbol × SQLClause))) (subs_q : Option (SNode → Option SQLClause))
    (body : TranslateContext → Except (PyError × TranslateContext) (α × TranslateContext)) :
    Except (PyError × TranslateContext) (α × TranslateContext) :=
  let prev_vars := ctx.vars_
  let prev_subs := ctx.subs
  let ctx := { ctx with
    vars_ := match vars_q with | some v => v | Option.none => ctx.vars_,
    subs := match subs_q with | some s => s | Option.none => ctx.subs }
  match body ctx with
  | .ok (a, ctx2) => .ok (a, { ctx2 with vars_ := prev_vars, subs := prev_subs })
  | .error (e, ctx2) => .error (e, { ctx2 with vars_ := prev_vars, subs := prev_subs })

-- ---------------------------------------------------------------------
-- nodes.py / nodedefs.py: node labels and label maps
-- ---------------------------------------------------------------------

/-- Scalar nodes as they appear among the `args` of `Select`, `Group`,
`Define`, `Bind`, `With`, `WithExternal`, restricted to what `label`
inspects. -/
inductive LNode where
  | Get (name : Symbol)
  | As (name : Symbol) (over : Option LNode)
  | Fun (name : Symbol) (args : List LNode)
  | Agg (name : Symbol) (args : List LNode)
  | Lit (val : PyVal)

/-- `label` (nodes.py line 39 for `None`, nodedefs.py lines 1427-1460 for
the node types above): `Agg`/`Fun`/`Get` and `As` label by their own name,
`Lit` delegates to `label(None)`, which returns `_`. -/
def label : Option LNode → Symbol
  | Option.none => "_"
  | some (.Get name) => name
  | some (.As name _) => name
  | some (.Fun name _) => name
  | some (.Agg name _) => name
  | some (.Lit _) => "_"

/-- Loop body of `populate_label_map` (nodes.py lines 51-61):
`for i, arg in enumerate(args)` starting at index `i`. -/
def populate_label_map_loop (args : List LNode) (i : Nat)
    (label_map : List (Symbol × Nat)) : Except PyError (List (Symbol × Nat)) :=
  match args with
  | [] => .ok label_map
  | arg :: rest =>
    let name := label (some arg)
    if (dict_get label_map name).isSome then .error (.errDuplicateLabel name)
    else populate_label_map_loop rest (i + 1) (dict_set label_map name i)

/-- `populate_label_map` (nodes.py lines 51-61): build `label → index` for
the constructor arguments, raising `ErrDuplicateLabel` on a repeated
label.  `Select`, `Group`, `Define`, `Bind` and `With` call this from
their `__init__` (nodedefs.py lines 388, 441, 694, 1141, 1322); `IntBind`
calls it at annotate.py line 268.  `WithExternal` is referenced by
annotate/resolve/translate but its class definition is not in the sources;
per the spec it carries the same construction-time `label_map`. -/
def populate_label_map (args : List LNode) : Except PyError (List (Symbol × Nat)) :=
  populate_label_map_loop args 0 []

-- ---------------------------------------------------------------------
-- clausedefs.py: VAR._serialize
-- ---------------------------------------------------------------------

/-- Python `list.index(x)` wrapped in `try/except ValueError`: the first
index of `x`, or `None` when absent. -/
def py_list_index (l : List Symbol) (x : Symbol) : Option Nat :=
  match l with
  | [] => Option.none
  | y :: rest =>
    if y = x then some 0
    else match py_list_index rest x with
      | some p => some (p + 1)
      | Option.none => Option.none

/-- `VAR._serialize` (clausedefs.py lines 1221-1236): write the dialect's
variable prefix; positional dialects just record the name; named and
numbered dialects deduplicate by name (`ctx.variables.index`, appending on
`ValueError`), then write the name or `str(1 + pos)`. -/
def VAR_serialize (name : Symbol) (ctx : SerializationContext) : SerializationContext :=
  let ctx := SCtx.write ctx ctx.dialect.var_pfx
  let style := ctx.dialect.var_style
  if style = .POSITIONAL then
    { ctx with variables_ := ctx.variables_ ++ [name] }
  else
    let pv :=
      match py_list_index ctx.variables_ name with
      | some p => (p, ctx.variables_)
      | Option.none => (ctx.variables_.length, ctx.variables_ ++ [name])
    let ctx := { ctx with variables_ := pv.2 }
    if style = .NAMED then SCtx.write ctx name
    else if style = .NUMBERED then SCtx.write ctx (decimalRepr (1 + pv.1))
    else ctx

/-- Serialize a sequence of `VAR` clauses in emission order, threading the
context. -/
def VAR_serialize_trace (ctx : SerializationContext) : List Symbol → SerializationContext
  | [] => ctx
  | n :: rest => VAR_serialize_trace (VAR_serialize n ctx) rest

/-- First-occurrence deduplication, continuing from the names already
`seen` (in order). -/
def dedup_first_from (seen : List Symbol) : List Symbol → List Symbol
  | [] => seen
  | n :: rest =>
    if n ∈ seen then dedup_first_from seen rest
    else dedup_first_from (seen ++ [n]) rest

-- ---------------------------------------------------------------------
-- compiler/types.py: the reference-type lattice
-- ---------------------------------------------------------------------

/-- `SQLType` (compiler/types.py): `EmptyType`, `ScalarType`,
`AmbiguousType` (equivalently the `UnitType` enum used by
resolve.py/link.py, whose definition lives outside src/; per the spec the
two formulations are behaviourally equivalent), `RowType` with its ordered
field map and `group`, and `BoxType` with its name, row and handle map. -/
inductive SQLType where
  | empty
  | scalar
  | ambiguous
  | row (fields : List (Symbol × SQLType)) (group : SQLType)
  | box (name : Symbol) (row : SQLType) (handle_map : List (Int × SQLType))

/-- Constructor tag, used for the `type(t1) == type(t2)` comparison. -/
def SQLType.tag : SQLType → Nat
  | .empty => 0
  | .scalar => 1
  | .ambiguous => 2
  | .row _ _ => 3
  | .box _ _ _ => 4

/-- The `.row` attribute of a `BoxType`; every value it is applied to below
is a `box` (Python would raise AttributeError otherwise). -/
def SQLType.box_row : SQLType → SQLType
  | .box _ r _ => r
  | t => t

mutual

/-- `is_subset` (types.py lines 292-320).  The `t1 == t2` early-return in
the source compares object identity; identical values also satisfy the
structural recursion below, so the shortcut is behaviourally redundant and
omitted.  Rows: every field of `t1` exists in `t2` with a subset type
(`group` is not compared).  Boxes: equal names, row subset, handle-map
subset.  Other combinations: equal Python types. -/
def is_subset (t1 t2 : SQLType) : Bool :=
  match t1, t2 with
  | .row f1 _, .row f2 _ => is_subset_fields f1 f2
  | .box n1 r1 h1, .box n2 r2 h2 =>
    if n1 ≠ n2 then false
    else if !is_subset r1 r2 then false
    else is_subset_handles h1 h2
  | t1, t2 => t1.tag = t2.tag

def is_subset_fields (f1 f2 : List (Symbol × SQLType)) : Bool :=
  match f1 with
  | [] => true
  | (k, v) :: rest =>
    match dict_get f2 k with
    | Option.none => false
    | some v2 => if !is_subset v v2 then false else is_subset_fields rest f2

def is_subset_handles (h1 h2 : List (Int × SQLType)) : Bool :=
  match h1 with
  | [] => true
  | (k, v) :: rest =>
    match dict_get h2 k with
    | Option.none => false
    | some v2 => if !is_subset v v2 then false else is_subset_handles rest h2

end

mutual

/-- `intersect` (types.py lines 184-221).  Anything with `Ambiguous` is
`Ambiguous`; `Scalar ∩ Scalar = Scalar`; rows intersect field-wise in
`t1`'s order dropping fields missing from `t2` or intersecting to `Empty`,
with groups intersected; boxes intersect handle-wise, keeping `t1.name`
when the names agree and `union` otherwise; every other combination is
`Empty`.  (The `t1 == t2` identity shortcut is omitted: `intersect t t = t`
holds structurally.) -/
def intersect (t1 t2 : SQLType) : SQLType :=
  match t1, t2 with
  | .ambiguous, _ => .ambiguous
  | _, .ambiguous => .ambiguous
  | .scalar, .scalar => .scalar
  | .row f1 g1, .row f2 g2 => .row (intersect_fields f1 f2) (intersect g1 g2)
  | .box n1 r1 h1, .box n2 r2 h2 =>
    .box (if n1 = n2 then n1 else "union") (intersect r1 r2) (intersect_handles h1 h2)
  | _, _ => .empty

def intersect_fields (f1 f2 : List (Symbol × SQLType)) : List (Symbol × SQLType) :=
  match f1 with
  | [] => []
  | (k, v) :: rest =>
    match dict_get f2 k with
    | Option.none => intersect_fields rest f2
    | some v2 =>
      match intersect v v2 with
      | .empty => intersect_fields rest f2
      | t => (k, t) :: intersect_fields rest f2

def intersect_handles (h1 h2 : List (Int × SQLType)) : List (Int × SQLType) :=
  match h1 with
  | [] => []
  | (k, v) :: rest =>
    match dict_get h2 k with
    | Option.none => intersect_handles rest h2
    | some v2 =>
      match intersect v v2 with
      | .empty => intersect_handles rest h2
      | t => (k, t) :: intersect_handles rest h2

end

/-- `BoxType.add_handle` (types.py lines 146-153): a negative handle stands
for "no handle" and leaves the type unchanged; otherwise the handle is
mapped to the box's own row. -/
def add_handle (t : SQLType) (handle : Int) : SQLType :=
  match t with
  | .box name row hm => if handle < 0 then t else .box name row (dict_set hm handle row)
  | t => t

-- ---------------------------------------------------------------------
-- compiler/resolve.py: resolve_knot (the fixed-point loop)
-- ---------------------------------------------------------------------

/-- The `while` loop of `resolve_knot` (resolve.py lines 148-151), with the
re-resolution of the iterator sub-boxes (`resolve_boxes(knot.iterator_boxes,
ctx)` followed by re-reading `box_type(knot.iterator)`) abstracted into a
state `σ` with a step `resolveIter` and an observation `iterTyp`; the step
receives the knot box's just-updated type, which the iterator boxes may
read (e.g. through a `FromReference` to the knot).  `fuel` bounds the
iteration count; `none` models non-termination within the bound. -/
def resolve_knot_loop (resolveIter : SQLType → σ → σ) (iterTyp : σ → SQLType) :
    Nat → SQLType → σ → Option (SQLType × σ)
  | 0, _, _ => Option.none
  | fuel + 1, typ, s =>
    if is_subset typ.box_row (iterTyp s).box_row then some (typ, s)
    else
      resolve_knot_loop resolveIter iterTyp fuel (intersect typ (iterTyp s))
        (resolveIter (intersect typ (iterTyp s)) s)

/-- `resolve_knot` (resolve.py lines 142-153): run the fixed-point loop on
the knot box's type, then record the knot's handle. -/
def resolve_knot (resolveIter : SQLType → σ → σ) (iterTyp : σ → SQLType) (fuel : Nat)
    (typ : SQLType) (handle : Int) (s : σ) : Option (SQLType × σ) :=
  match resolve_knot_loop resolveIter iterTyp fuel typ s with
  | some (typ2, s2) => some (add_handle typ2 handle, s2)
  | Option.none => Option.none

-- ---------------------------------------------------------------------
-- compiler/link.py: link (Knot) — the refinement fixed point
-- ---------------------------------------------------------------------

/-- A `NameBound` reference sitting in the knot's box during `link (Knot)`
(link.py lines 331-360); `ι` identifies the wrapped `over` node. -/
structure NBRef (ι : Type) where
  over : ι
  name : Symbol
  deriving DecidableEq

/-- One sweep of the `for ref in node.box.refs` loop (link.py lines
340-346): copy every ref whose `over` has not been seen into `refs`,
record it in `seen`, and report in the third component whether anything
new was found (`repeat`). -/
def knot_scan [DecidableEq ι] (boxRefs refs : List (NBRef ι)) (seen : List ι) :
    List (NBRef ι) × List ι × Bool :=
  match boxRefs with
  | [] => (refs, seen, false)
  | ref :: rest =>
    if ref.over ∈ seen then knot_scan rest refs seen
    else
      match knot_scan rest (refs ++ [ref]) (seen ++ [ref.over]) with
      | (refs2, seen2, _) => (refs2, seen2, true)

/-- The `while True` refinement loop of `link (Knot)` (link.py lines
338-355).  The linking state is a pair of the knot box's `refs` list and an
abstract remainder `τ` (the iterator boxes).  Each round scans the knot
box's refs, writes the accumulated `refs` back
(`node.box.refs.clear(); node.box.refs.extend(refs)`), stops when nothing
new appeared, and otherwise runs `relink` (clearing the iterator boxes'
refs, extending the iterator box's refs with `refs`, and
`link_boxes(reversed(node.iterator_boxes), ctx)` — which may push new refs
into the knot box). -/
def link_knot_loop [DecidableEq ι] (relink : List (NBRef ι) × τ → List (NBRef ι) × τ) :
    Nat → List (NBRef ι) → List ι → List (NBRef ι) × τ →
    Option (List (NBRef ι) × List ι × (List (NBRef ι) × τ))
  | 0, _, _, _ => Option.none
  | fuel + 1, refs, seen, s =>
    match knot_scan s.1 refs seen with
    | (refs2, seen2, rep) =>
      let s2 := (refs2, s.2)
      if !rep then some (refs2, seen2, s2)
      else link_knot_loop relink fuel refs2 seen2 (relink s2)

/-- `link (Knot)` entry: the loop starts with `refs = []` and
`seen = set()`. -/
def link_knot [DecidableEq ι] (relink : List (NBRef ι) × τ → List (NBRef ι) × τ)
    (fuel : Nat) (s : List (NBRef ι) × τ) :
    Option (List (NBRef ι) × List ι × (List (NBRef ι) × τ)) :=
  link_knot_loop relink fuel [] [] s

/-- Shared concrete context: a fresh `TranslateContext` over the default
dialect, as built at the start of a compilation. -/
def ctx0 : TranslateContext := { dialect := {} }

/-- The dispatch conditions of the `Fun` branch of `translate_node`
(translate.py lines 328-395): a call is special when its (uppercased) name
matches one of the dedicated branches, counting the argument-arity guards
of `BETWEEN`/`NOT BETWEEN` (3 args) and
`CURRENT_DATE`/`CURRENT_TIMESTAMP` (0 args).  A non-special call falls
through to the default logic (lines 397-401). -/
def fun_is_special (fn : String) (nargs : Nat) : Bool :=
  fn = "NOT" || fn = "LIKE" || fn = "EXISTS" || fn = "=" || fn = "==" || fn = "!=" ||
  fn = "AND" || fn = "OR" || fn = "IN" || fn = "NOT IN" ||
  fn = "IS NULL" || fn = "IS NOT NULL" || fn = "CASE" || fn = "CAST" || fn = "EXTRACT" ||
  ((fn = "BETWEEN" || fn = "NOT BETWEEN") && nargs = 3) ||
  ((fn = "CURRENT_DATE" || fn = "CURRENT_TIMESTAMP") && nargs = 0)

-- =====================================================================
-- Theorems
-- =====================================================================

-- dictionary lemmas ----------------------------------------------------

theorem dict_get_set_self [DecidableEq κ] (d : List (κ × α)) (k : κ) (v : α) :
    dict_get (dict_set d k v) k = some v := by
  induction d with
  | nil => simp [dict_set, dict_get]
  | cons hd tl ih =>
    obtain ⟨k', v'⟩ := hd
    by_cases h : k' = k
    · subst h; simp [dict_set, dict_get]
    · simp [dict_set, dict_get, h, ih]

theorem dict_get_set_ne [DecidableEq κ] (d : List (κ × α)) (k k' : κ) (v : α)
    (h : k' ≠ k) : dict_get (dict_set d k v) k' = dict_get d k' := by
  induction d with
  | nil => simp [dict_set, dict_get, Ne.symm h]
  | cons hd tl ih =>
    obtain ⟨k₁, v₁⟩ := hd
    by_cases h1 : k₁ = k
    · subst h1
      have : ¬ (k₁ = k') := fun hh => h (hh.symm)
      simp [dict_set, dict_get, this]
    · by_cases h2 : k₁ = k'
      · subst h2; simp [dict_set, dict_get, h1]
      · simp [dict_set, dict_get, h1, h2, ih]

-- C4: populate_label_map -----------------------------------------------

theorem plm_loop_ok (args : List LNode) :
    ∀ (i0 : Nat) (m m' : List (Symbol × Nat)),
      populate_label_map_loop args i0 m = .ok m' →
      (∀ k v, dict_get m k = some v → dict_get m' k = some v) ∧
      (∀ j (hj : j < args.length),
        dict_get m' (label (some (args.get ⟨j, hj⟩))) = some (i0 + j)) := by
  induction args with
  | nil =>
    intro i0 m m' h
    simp [populate_label_map_loop] at h
    subst h
    exact ⟨fun _ _ hh => hh, fun j hj => absurd hj (by simp)⟩
  | cons arg rest ih =>
    intro i0 m m' h
    simp only [populate_label_map_loop] at h
    by_cases hmem : (dict_get m (label (some arg))).isSome
    · simp [hmem] at h
    · simp [hmem] at h
      obtain ⟨hpres, hpos⟩ := ih (i0 + 1) (dict_set m (label (some arg)) i0) m' h
      constructor
      · intro k v hk
        apply hpres
        have hne : k ≠ label (some arg) := by
          intro he; subst he; simp [hk] at hmem
        rw [dict_get_set_ne _ _ _ _ hne]
        exact hk
      · intro j hj
        match j with
        | 0 =>
          have := hpres (label (some arg)) i0 (dict_get_set_self m _ _)
          simpa using this
        | j' + 1 =>
          have := hpos j' (by simpa using Nat.lt_of_succ_lt_succ hj)
          simpa [Nat.add_assoc, Nat.add_comm 1 j', Nat.add_left_comm] using this

theorem plm_loop_error (args : List LNode) :
    ∀ (i0 : Nat) (m : List (Symbol × Nat)),
      exceptIsError (populate_label_map_loop args i0 m) = true →
      (∃ i j, ∃ (hi : i < args.length) (hj : j < args.length), i < j ∧
        label (some (args.get ⟨i, hi⟩)) = label (some (args.get ⟨j, hj⟩))) ∨
      (∃ j, ∃ (hj : j < args.length),
        (dict_get m (label (some (args.get ⟨j, hj⟩)))).isSome = true) := by
  induction args with
  | nil => intro i0 m h; simp [populate_label_map_loop, exceptIsError] at h
  | cons arg rest ih =>
    intro i0 m h
    simp only [populate_label_map_loop] at h
    by_cases hmem : (dict_get m (label (some arg))).isSome
    · right
      exact ⟨0, Nat.succ_pos _, by simpa using hmem⟩
    · simp [hmem] at h
      rcases ih (i0 + 1) (dict_set m (label (some arg)) i0) h with hdup | hkey
      · left
        obtain ⟨i, j, hi, hj, hij, heq⟩ := hdup
        exact ⟨i + 1, j + 1, by simpa using Nat.succ_lt_succ hi,
               by simpa using Nat.succ_lt_succ hj, Nat.succ_lt_succ hij, by simpa using heq⟩
      · obtain ⟨j, hj, hkey⟩ := hkey
        by_cases he : label (some (rest.get ⟨j, hj⟩)) = label (some arg)
        · left
          exact ⟨0, j + 1, Nat.succ_pos _, by simpa using Nat.succ_lt_succ hj,
                 Nat.succ_pos _, by simpa using he.symm⟩
        · right
          refine ⟨j + 1, by simpa using Nat.succ_lt_succ hj, ?_⟩
          rw [dict_get_set_ne _ _ _ _ he] at hkey
          simpa using hkey

/-- C4: constructing any node carrying a `label_map` (`Select`, `Group`,
`Define`, `Bind`, `With`, `WithExternal`) raises the duplicate-label error
exactly when two args share a label; otherwise construction succeeds and
`label_map` maps each arg's label to that arg's index. -/
theorem populate_label_map_spec (args : List LNode) :
    (∀ m, populate_label_map args = .ok m →
      ∀ i (h : i < args.length), dict_get m (label (some (args.get ⟨i, h⟩))) = some i) ∧
    (exceptIsError (populate_label_map args) = true ↔
      ∃ i j, ∃ (hi : i < args.length) (hj : j < args.length), i < j ∧
        label (some (args.get ⟨i, hi⟩)) = label (some (args.get ⟨j, hj⟩))) := by
  constructor
  · intro m hm i h
    have := (plm_loop_ok args 0 [] m hm).2 i h
    simpa using this
  · constructor
    · intro h
      rcases plm_loop_error args 0 [] h with hdup | hkey
      · exact hdup
      · obtain ⟨j, hj, hkey⟩ := hkey
        simp [dict_get] at hkey
    · intro ⟨i, j, hi, hj, hij, heq⟩
      cases hok : populate_label_map args with
      | error e => simp [exceptIsError]
      | ok m =>
        exfalso
        have h1 := (plm_loop_ok args 0 [] m hok).2 i hi
        have h2 := (plm_loop_ok args 0 [] m hok).2 j hj
        rw [heq] at h1
        rw [h1] at h2
        have : i = j := by
          have := Option.some.inj h2
          omega
        omega

/-- C4 witness: `Select(Get.a, Get.a)` raises duplicate-label, and for
`[Get.a, Get.b]` the label map sends `a ↦ 0`. -/
theorem populate_label_map_spec_witness :
    exceptIsError (populate_label_map [LNode.Get "a", LNode.Get "a"]) = true ∧
    dict_get [("a", 0), ("b", 1)] ("a" : Symbol) = some 0 := by
  constructor
  · exact (populate_label_map_spec [LNode.Get "a", LNode.Get "a"]).2.mpr
      ⟨0, 1, by decide, by decide, by decide, rfl⟩
  · exact (populate_label_map_spec [LNode.Get "a", LNode.Get "b"]).1
      [("a", 0), ("b", 1)] rfl 0 (by decide)

-- C6: scoped acquisitions ----------------------------------------------

/-- C6: the translate context's variable/substitution scope restores the
previous maps on both the normal and the exception exit (try/finally), but
the annotate context's CTE-stack scope restores only on the normal exit —
when the body raises, `cte_nodes` is left extended, because the
`@contextmanager` generator has no `try/finally` around its `yield`. -/
theorem scope_restore_behaviour :
    substitute_vars_n_subs ctx0 (some [("v", .LIT PyVal.none)]) Option.none
        (fun c => (.ok ((), c) : Except (PyError × TranslateContext) (Unit × TranslateContext)))
      = .ok ((), ctx0)
  ∧ substitute_vars_n_subs ctx0 (some [("v", .LIT PyVal.none)]) Option.none
        (fun c => (.error (.errIllFormed, c) : Except (PyError × TranslateContext) (Unit × TranslateContext)))
      = .error (.errIllFormed, ctx0)
  ∧ extend_cte_nodes { cte_nodes := ([] : List (Symbol × Nat)), payload := () } [("t", 1)]
        (fun c => (.ok ((), c) : Except (PyError × AnnotateCtx Nat Unit) (Unit × AnnotateCtx Nat Unit)))
      = .ok ((), { cte_nodes := [], payload := () })
  ∧ extend_cte_nodes { cte_nodes := ([] : List (Symbol × Nat)), payload := () } [("t", 1)]
        (fun c => (.error (.errIllFormed, c) : Except (PyError × AnnotateCtx Nat Unit) (Unit × AnnotateCtx Nat Unit)))
      = .error (.errIllFormed, { cte_nodes := [("t", 1)], payload := () }) := by
  refine ⟨rfl, rfl, rfl, rfl⟩

-- C9: empty column map completes to SELECT NULL ------------------------

/-- C9: completing an assemblage whose column map is empty into a `SELECT`
produces exactly one select argument, the literal `NULL`. -/
theorem empty_cols_select_null {ν : Type} (a : Assemblage ν) (h1 : a.cols = [])
    (h2 : ∀ c, a.clause = some c → clause_is_select_union c = false) :
    get_complete_select a = .SELECT [.LIT PyVal.none] false Option.none a.clause := by
  cases hc : a.clause with
  | none => simp [get_complete_select, hc, cols_to_select_args, h1]
  | some c =>
    have := h2 c hc
    simp [get_complete_select, hc, this, cols_to_select_args, h1]

/-- C9 witness: a bare `FROM` assemblage with no requested columns
completes to `SELECT NULL FROM …`. -/
theorem empty_cols_select_null_witness :
    get_complete_select (ν := Unit) { clause := some (.FROM Option.none), cols := [], repl := [] }
      = .SELECT [.LIT PyVal.none] false Option.none (some (.FROM Option.none)) :=
  empty_cols_select_null _ rfl (fun c hc => by
    injection hc with h
    rw [← h]
    rfl)

-- C5: translate of AND/OR ----------------------------------------------

/-- C5: translating `Fun` named AND/OR — the empty call degenerates to the
TRUE/FALSE literal, a single argument passes through, a nested AND/OR in
the first argument is merged; but the two-argument identity-literal case is
NOT simplified: `isinstance(args[0], Lit)` tests the SQLNode class `Lit`
against a translated SQLClause value and is always false, so
`Fun("and", Lit(True), Var("x"))` yields `OP("AND", LIT(TRUE), VAR("x"))`
rather than the claimed `VAR("x")`. -/
theorem translate_and_or_behaviour :
    translate (.Fun "and" []) ctx0 = .LIT (.bool true)
  ∧ translate (.Fun "or" []) ctx0 = .LIT (.bool false)
  ∧ translate (.Fun "and" [.Var "x"]) ctx0 = .VAR "x"
  ∧ translate (.Fun "and" [.Fun "and" [.Var "x", .Var "y"], .Var "z"]) ctx0
      = .OP "AND" [.VAR "x", .VAR "y", .VAR "z"]
  ∧ translate (.Fun "and" [.Lit (.bool true), .Var "x"]) ctx0
      = .OP "AND" [.LIT (.bool true), .VAR "x"]
  ∧ ¬ translate (.Fun "and" [.Lit (.bool true), .Var "x"]) ctx0 = .VAR "x" := by
  have hand : pyUpper "and" = "AND" := by decide
  have hor : pyUpper "or" = "OR" := by decide
  refine ⟨?_, ?_, ?_, ?_, ?_, ?_⟩
  · simp [translate, translate_list, ctx0, hand]
  · simp [translate, translate_list, ctx0, hor]
  · simp [translate, translate_list, ctx0, dict_get, hand]
  · simp [translate, translate_list, ctx0, dict_get, clause_isinstance_node_Lit, hand]
  · simp [translate, translate_list, ctx0, dict_get, clause_isinstance_node_Lit, hand]
  · simp [translate, translate_list, ctx0, dict_get, clause_isinstance_node_Lit, hand]

-- C1: LIMIT serialization ----------------------------------------------

/-- C1: serializing any `LIMIT` clause with at least one of limit/offset
set raises AttributeError (for every dialect, the default Regular one
included), because `LIMIT._serialize` compares against the non-existent
enum member `LimitStyle.MYSQL`; the MySQL and SQLite dialect constructors
fail the same way, so none of the three dialect limit shapes can be
emitted. -/
theorem limit_serialize_raises_attribute_error :
    (∀ (ctx : SerializationContext) (l : Int) (o : Option Int) (w : Bool),
        LIMIT_serialize (some l) o w ctx = .error (.attributeError "MYSQL"))
  ∧ (∀ (ctx : SerializationContext) (o : Int) (l : Option Int) (w : Bool),
        LIMIT_serialize l (some o) w ctx = .error (.attributeError "MYSQL"))
  ∧ dialect_mysql = .error (.attributeError "MYSQL")
  ∧ dialect_sqlite = .error (.attributeError "SQLITE") := by
  refine ⟨?_, ?_, rfl, rfl⟩
  · intro ctx l o w
    simp [LIMIT_serialize, LimitStyle.getMember, Bind.bind, Except.bind, Pure.pure, Except.pure]
  · intro ctx o l w
    simp [LIMIT_serialize, LimitStyle.getMember, Bind.bind, Except.bind, Pure.pure, Except.pure]

-- C10: Fun/Agg names are uppercased ------------------------------------

/-- C10: the translated clause carries the uppercased name — a
`count`-named `Agg` (any casing) with zero args becomes `AGG("COUNT")`
over the `*` operator, any other `Agg` becomes `AGG` with the uppercased
name, and a `Fun` that falls through to the default branch becomes `FUN`
with the uppercased name when alphabetic, else `OP` with the uppercased
name. -/
theorem translate_uppercases_names (name : Symbol) (args : List SNode) (d : Bool)
    (f : Option SNode) (ctx : TranslateContext)
    (hA : ctx.subs (.Agg name args d f) = Option.none)
    (hF : ctx.subs (.Fun name args) = Option.none) :
    (pyUpper name = "COUNT" ∧ args = [] →
      translate (.Agg name args d f) ctx
        = .AGG "COUNT" [.OP "*" []] d (translate_opt f ctx) Option.none)
  ∧ (¬(pyUpper name = "COUNT" ∧ args = []) →
      translate (.Agg name args d f) ctx
        = .AGG (pyUpper name) (translate_list args ctx) d (translate_opt f ctx) Option.none)
  ∧ (fun_is_special (pyUpper name) args.length = false →
      translate (.Fun name args) ctx
        = if py_isalpha (pyUpper name) then .FUN (pyUpper name) (translate_list args ctx)
          else .OP (pyUpper name) (translate_list args ctx)) := by
  refine ⟨?_, ?_, ?_⟩
  · rintro ⟨hc, rfl⟩
    simp [translate, hA, hc]
  · intro h
    by_cases hc : pyUpper name = "COUNT"
    · have hargs : args ≠ [] := fun he => h ⟨hc, he⟩
      have hlen : args.length > 0 := List.length_pos.mpr hargs
      simp [translate, hA, hc, hlen]
    · simp [translate, hA, hc]
  · intro h
    simp only [fun_is_special, Bool.or_eq_false_iff, Bool.and_eq_false_iff,
      decide_eq_false_iff_not] at h
    obtain ⟨⟨⟨h1, h2⟩, h3⟩, h4⟩ := h
    simp [translate, hF]
    rw [if_neg, if_neg, if_neg, if_neg, if_neg, if_neg, if_neg, if_neg, if_neg]
    all_goals simp_all
    all_goals tauto

/-- C10 witness: `Agg.sum(x)`, `Fun.median(x)` and the zero-argument
`Agg.count()` under a fresh context. -/
theorem translate_uppercases_names_witness :
    translate (.Agg "sum" [.Var "x"] false Option.none) ctx0
      = .AGG (pyUpper "sum") (translate_list [.Var "x"] ctx0) false
          (translate_opt Option.none ctx0) Option.none
  ∧ translate (.Fun "median" [.Var "x"]) ctx0
      = (if py_isalpha (pyUpper "median")
         then .FUN (pyUpper "median") (translate_list [.Var "x"] ctx0)
         else .OP (pyUpper "median") (translate_list [.Var "x"] ctx0))
  ∧ translate (.Agg "count" [] false Option.none) ctx0
      = .AGG "COUNT" [.OP "*" []] false (translate_opt Option.none ctx0) Option.none := by
  refine ⟨?_, ?_, ?_⟩
  · exact (translate_uppercases_names "sum" [.Var "x"] false Option.none ctx0 rfl rfl).2.1
      (by rintro ⟨-, h⟩; exact absurd h (by simp))
  · exact (translate_uppercases_names "median" [.Var "x"] false Option.none ctx0 rfl rfl).2.2
      (by decide)
  · exact (translate_uppercases_names "count" [] false Option.none ctx0 rfl rfl).1
      ⟨by decide, rfl⟩

-- C7: alias uniqueness -------------------------------------------------

theorem digitChar_toNat {k : Nat} (hk : k < 10) : (digitChar k).toNat = 48 + k := by
  interval_cases k <;> decide

theorem digitChar_ne_underscore {k : Nat} (hk : k < 10) : digitChar k ≠ '_' := by
  intro h
  have h1 := digitChar_toNat hk
  rw [h] at h1
  have h2 : ('_').toNat = 95 := by decide
  omega

theorem digitChar_inj {a b : Nat} (ha : a < 10) (hb : b < 10)
    (h : digitChar a = digitChar b) : a = b := by
  have h1 := digitChar_toNat ha
  have h2 := digitChar_toNat hb
  rw [h] at h1
  omega

theorem map_digitChar_inj : ∀ (l1 l2 : List Nat), (∀ x ∈ l1, x < 10) →
    (∀ x ∈ l2, x < 10) → l1.map digitChar = l2.map digitChar → l1 = l2 := by
  intro l1
  induction l1 with
  | nil => intro l2 _ _ h; cases l2 <;> simp_all
  | cons x xs ih =>
    intro l2 h1 h2 h
    cases l2 with
    | nil => simp at h
    | cons y ys =>
      simp only [List.map_cons, List.cons.injEq] at h
      have hx := digitChar_inj (h1 x (by simp)) (h2 y (by simp)) h.1
      have := ih ys (fun z hz => h1 z (by simp [hz])) (fun z hz => h2 z (by simp [hz])) h.2
      simp [hx, this]

theorem decimalRepr_inj {n1 n2 : Nat} (h1 : n1 ≠ 0) (h2 : n2 ≠ 0)
    (h : decimalRepr n1 = decimalRepr n2) : n1 = n2 := by
  rw [decimalRepr, decimalRepr, if_neg h1, if_neg h2] at h
  have hd : ((Nat.digits 10 n1).map digitChar).reverse
      = ((Nat.digits 10 n2).map digitChar).reverse := by
    have := congrArg String.data h
    simpa using this
  have hmap : (Nat.digits 10 n1).map digitChar = (Nat.digits 10 n2).map digitChar := by
    have := congrArg List.reverse hd
    simpa using this
  have hdig := map_digitChar_inj _ _
    (fun x hx => Nat.digits_lt_base (by norm_num) hx)
    (fun x hx => Nat.digits_lt_base (by norm_num) hx) hmap
  have := congrArg (Nat.ofDigits 10) hdig
  simpa [Nat.ofDigits_digits] using this

theorem decimalRepr_chars {n : Nat} (hn : n ≠ 0) :
    ∀ c ∈ (decimalRepr n).data, c ≠ '_' := by
  intro c hc
  rw [decimalRepr, if_neg hn] at hc
  simp only [String.data] at hc
  simp only [List.mem_reverse, List.mem_map] at hc
  obtain ⟨k, hk, rfl⟩ := hc
  exact digitChar_ne_underscore (Nat.digits_lt_base (by norm_num) hk)

theorem sep_split_inj (sep : Char) : ∀ (x1 x2 y1 y2 : List Char),
    (∀ c ∈ x1, c ≠ sep) → (∀ c ∈ x2, c ≠ sep) →
    x1 ++ sep :: y1 = x2 ++ sep :: y2 → x1 = x2 ∧ y1 = y2 := by
  intro x1
  induction x1 with
  | nil =>
    intro x2 y1 y2 _ hx2 h
    cases x2 with
    | nil => simpa using h
    | cons c x2' =>
      simp only [List.nil_append, List.cons_append, List.cons.injEq] at h
      exact absurd h.1.symm (hx2 c (by simp))
  | cons c x1' ih =>
    intro x2 y1 y2 hx1 hx2 h
    cases x2 with
    | nil =>
      simp only [List.nil_append, List.cons_append, List.cons.injEq] at h
      exact absurd h.1 (hx1 c (by simp))
    | cons c2 x2' =>
      simp only [List.cons_append, List.cons.injEq] at h
      obtain ⟨rfl, h2⟩ := h
      have := ih x2' y1 y2 (fun z hz => hx1 z (by simp [hz]))
        (fun z hz => hx2 z (by simp [hz])) h2
      simp [this]

theorem alias_encode_inj {b1 b2 : Symbol} {n1 n2 : Nat} (h1 : n1 ≠ 0) (h2 : n2 ≠ 0)
    (h : b1 ++ "_" ++ decimalRepr n1 = b2 ++ "_" ++ decimalRepr n2) :
    b1 = b2 ∧ n1 = n2 := by
  have hdata : b1.data ++ '_' :: (decimalRepr n1).data
      = b2.data ++ '_' :: (decimalRepr n2).data := by
    have := congrArg String.data h
    simpa [String.data_append] using this
  have hrev : (decimalRepr n1).data.reverse ++ '_' :: b1.data.reverse
      = (decimalRepr n2).data.reverse ++ '_' :: b2.data.reverse := by
    have := congrArg List.reverse hdata
    simpa [List.reverse_append] using this
  have hsplit := sep_split_inj '_' _ _ _ _
    (fun c hc => decimalRepr_chars h1 c (List.mem_reverse.mp hc))
    (fun c hc => decimalRepr_chars h2 c (List.mem_reverse.mp hc)) hrev
  constructor
  · apply String.ext
    have := congrArg List.reverse hsplit.2
    simpa using this
  · apply decimalRepr_inj h1 h2
    apply String.ext
    have := congrArg List.reverse hsplit.1
    simpa using this

theorem alloc_trace_spec : ∀ (reqs : List Symbol) (ctx : TranslateContext),
    (∀ out ∈ allocate_alias_trace ctx reqs,
      ∃ b n, out = b ++ "_" ++ decimalRepr n ∧ (dict_get ctx.aliases b).getD 0 < n) ∧
    List.Pairwise (· ≠ ·) (allocate_alias_trace ctx reqs) := by
  intro reqs
  induction reqs with
  | nil => intro ctx; simp [allocate_alias_trace]
  | cons a rest ih =>
    intro ctx
    set g := (dict_get ctx.aliases a).getD 0 with hg
    have hstep : allocate_alias ctx a
        = (a ++ "_" ++ decimalRepr (g + 1),
           { ctx with aliases := dict_set ctx.aliases a (g + 1) }) := rfl
    set ctx2 : TranslateContext := { ctx with aliases := dict_set ctx.aliases a (g + 1) }
    have htrace : allocate_alias_trace ctx (a :: rest)
        = (a ++ "_" ++ decimalRepr (g + 1)) :: allocate_alias_trace ctx2 rest := by
      simp [allocate_alias_trace, hstep]
    obtain ⟨ihmem, ihpw⟩ := ih ctx2
    have hmono : ∀ b : Symbol, (dict_get ctx.aliases b).getD 0 ≤ (dict_get ctx2.aliases b).getD 0 := by
      intro b
      by_cases hb : b = a
      · subst hb
        simp [ctx2, dict_get_set_self]
      · simp [ctx2, dict_get_set_ne ctx.aliases a b (g + 1) hb]
    constructor
    · rw [htrace]
      intro out hout
      rcases List.mem_cons.mp hout with rfl | hout'
      · exact ⟨a, g + 1, rfl, by omega⟩
      · obtain ⟨b, n, hbn, hlt⟩ := ihmem out hout'
        exact ⟨b, n, hbn, lt_of_le_of_lt (hmono b) hlt⟩
    · rw [htrace]
      refine List.Pairwise.cons ?_ ihpw
      intro out hout heq
      obtain ⟨b, n, hbn, hlt⟩ := ihmem out hout
      rw [hbn] at heq
      obtain ⟨hbb, hnn⟩ := alias_encode_inj (by omega) (by
        have : (dict_get ctx2.aliases b).getD 0 < n := hlt
        omega) heq
      subst hbb
      have : (dict_get ctx2.aliases a).getD 0 = g + 1 := by
        simp [ctx2, dict_get_set_self]
      omega

/-- C7: `allocate_alias` returns `{name}_{n+1}` where `n` is the stored
counter for that base name, and every alias produced across a sequence of
allocations within one compilation is distinct from every other. -/
theorem allocate_alias_unique :
    (∀ (ctx : TranslateContext) (base : Symbol),
      (allocate_alias ctx base).1
        = base ++ "_" ++ decimalRepr ((dict_get ctx.aliases base).getD 0 + 1))
  ∧ (∀ (ctx : TranslateContext) (reqs : List Symbol),
      List.Pairwise (· ≠ ·) (allocate_alias_trace ctx reqs)) :=
  ⟨fun _ _ => rfl, fun ctx reqs => (alloc_trace_spec reqs ctx).2⟩

-- C8: numbered-style variable serialization ----------------------------

theorem py_list_index_none_iff (l : List Symbol) (x : Symbol) :
    py_list_index l x = Option.none ↔ x ∉ l := by
  induction l with
  | nil => simp [py_list_index]
  | cons y rest ih =>
    by_cases h : y = x
    · subst h; simp [py_list_index]
    · cases hr : py_list_index rest x with
      | none => simp [py_list_index, h, hr, ih.mp hr, Ne.symm h]
      | some p =>
        have : x ∈ rest := by
          by_contra hmem
          rw [ih.mpr hmem] at hr
          cases hr
        simp [py_list_index, h, hr, this]

theorem VAR_serialize_dialect (n : Symbol) (ctx : SerializationContext) :
    (VAR_serialize n ctx).dialect = ctx.dialect := by
  rw [VAR_serialize]
  split
  · rfl
  · split <;> simp only [] <;> split <;> first | rfl | (split <;> rfl)

/-- C8: under a numbered-style dialect, a fresh `Var` name is appended at
the end of `variables` (so the i-th distinct name in emission order ends
up at `variables[i-1]`) and rendered as the prefix followed by that
1-based index, a repeated name reuses its earlier index and adds nothing,
and across any emission sequence the recorded list is the
first-occurrence deduplication of the names. -/
theorem VAR_serialize_numbered_spec (d : SQLDialect) (hd : d.var_style = .NUMBERED) :
    (∀ (ctx : SerializationContext) (name : Symbol), ctx.dialect = d →
      py_list_index ctx.variables_ name = Option.none →
      VAR_serialize name ctx = { ctx with
        buffer := (ctx.buffer ++ d.var_pfx) ++ decimalRepr (1 + ctx.variables_.length),
        variables_ := ctx.variables_ ++ [name] })
  ∧ (∀ (ctx : SerializationContext) (name : Symbol) (p : Nat), ctx.dialect = d →
      py_list_index ctx.variables_ name = some p →
      VAR_serialize name ctx = { ctx with
        buffer := (ctx.buffer ++ d.var_pfx) ++ decimalRepr (1 + p) })
  ∧ (∀ (ns : List Symbol) (ctx : SerializationContext), ctx.dialect = d →
      (VAR_serialize_trace ctx ns).variables_ = dedup_first_from ctx.variables_ ns) := by
  have hnp : (VarStyle.NUMBERED = VarStyle.POSITIONAL) = False := by simp
  have hnn : (VarStyle.NUMBERED = VarStyle.NAMED) = False := by simp
  refine ⟨?_, ?_, ?_⟩
  · intro ctx name hctx hidx
    simp [VAR_serialize, SCtx.write, hctx, hd, hidx]
  · intro ctx name p hctx hidx
    simp [VAR_serialize, SCtx.write, hctx, hd, hidx]
  · intro ns
    induction ns with
    | nil => intro ctx _; simp [VAR_serialize_trace, dedup_first_from]
    | cons n rest ih =>
      intro ctx hctx
      have hdia : (VAR_serialize n ctx).dialect = d := by rw [VAR_serialize_dialect, hctx]
      have hvars : (VAR_serialize n ctx).variables_ =
          if n ∈ ctx.variables_ then ctx.variables_ else ctx.variables_ ++ [n] := by
        cases hidx : py_list_index ctx.variables_ n with
        | none =>
          have hm : n ∉ ctx.variables_ := (py_list_index_none_iff _ _).mp hidx
          simp [VAR_serialize, SCtx.write, hctx, hd, hidx, hm]
        | some p =>
          have hm : n ∈ ctx.variables_ := by
            by_contra hmem
            rw [(py_list_index_none_iff _ _).mpr hmem] at hidx
            cases hidx
          simp [VAR_serialize, SCtx.write, hctx, hd, hidx, hm]
      calc (VAR_serialize_trace ctx (n :: rest)).variables_
          = (VAR_serialize_trace (VAR_serialize n ctx) rest).variables_ := by
            rw [VAR_serialize_trace]
        _ = dedup_first_from (VAR_serialize n ctx).variables_ rest := ih _ hdia
        _ = dedup_first_from ctx.variables_ (n :: rest) := by
            rw [hvars, dedup_first_from]
            by_cases hmem : n ∈ ctx.variables_ <;> simp [hmem]

/-- C8 witness: serializing `VAR x, VAR y, VAR x` under the PostgreSQL
(numbered, `$`) dialect. -/
theorem VAR_serialize_numbered_spec_witness :
    VAR_serialize "x" { dialect := dialect_postgres }
      = { dialect := dialect_postgres,
          buffer := (("" ++ dialect_postgres.var_pfx) ++ decimalRepr (1 + 0)),
          variables_ := [] ++ ["x"] }
  ∧ (VAR_serialize_trace { dialect := dialect_postgres } ["x", "y", "x"]).variables_
      = dedup_first_from [] ["x", "y", "x"] := by
  constructor
  · have := (VAR_serialize_numbered_spec dialect_postgres rfl).1
      { dialect := dialect_postgres } "x" rfl rfl
    simpa using this
  · exact (VAR_serialize_numbered_spec dialect_postgres rfl).2.2
      ["x", "y", "x"] { dialect := dialect_postgres } rfl

-- C3: Knot fixed points ------------------------------------------------

theorem add_handle_box_row (t : SQLType) (h : Int) :
    (add_handle t h).box_row = t.box_row := by
  cases t with
  | box name row hm =>
    rw [add_handle]
    split <;> rfl
  | empty => rfl
  | scalar => rfl
  | ambiguous => rfl
  | row f g => rfl

theorem resolve_knot_loop_post {σ : Type} (resolveIter : SQLType → σ → σ) (iterTyp : σ → SQLType) :
    ∀ (fuel : Nat) (typ : SQLType) (s : σ) (typ2 : SQLType) (s2 : σ),
      resolve_knot_loop resolveIter iterTyp fuel typ s = some (typ2, s2) →
      is_subset typ2.box_row (iterTyp s2).box_row = true := by
  intro fuel
  induction fuel with
  | zero => intro typ s typ2 s2 h; cases h
  | succ n ih =>
    intro typ s typ2 s2 h
    rw [resolve_knot_loop] at h
    by_cases hc : is_subset typ.box_row (iterTyp s).box_row = true
    · simp [hc] at h
      obtain ⟨h1, h2⟩ := h
      subst h1; subst h2
      exact hc
    · simp [hc] at h
      exact ih _ _ _ _ h

theorem knot_scan_inv {ι : Type} [DecidableEq ι] :
    ∀ (boxRefs refs : List (NBRef ι)) (seen : List ι) (refs2 : List (NBRef ι))
      (seen2 : List ι) (rep : Bool),
      knot_scan boxRefs refs seen = (refs2, seen2, rep) →
      (∀ r ∈ refs, r.over ∈ seen) → ∀ r ∈ refs2, r.over ∈ seen2 := by
  intro boxRefs
  induction boxRefs with
  | nil =>
    intro refs seen refs2 seen2 rep h hinv
    simp [knot_scan] at h
    obtain ⟨h1, h2, -⟩ := h
    subst h1; subst h2
    exact hinv
  | cons ref rest ih =>
    intro refs seen refs2 seen2 rep h hinv
    rw [knot_scan] at h
    by_cases hmem : ref.over ∈ seen
    · simp only [hmem, if_true] at h
      exact ih _ _ _ _ _ h hinv
    · simp only [hmem, if_false] at h
      cases hrec : knot_scan rest (refs ++ [ref]) (seen ++ [ref.over]) with
      | mk refs' rest' =>
        obtain ⟨seen', rep'⟩ := rest'
        rw [hrec] at h
        simp at h
        obtain ⟨h1, h2, -⟩ := h
        subst h1; subst h2
        apply ih _ _ _ _ _ hrec
        intro r hr
        rcases List.mem_append.mp hr with hr' | hr'
        · exact List.mem_append_left _ (hinv r hr')
        · simp at hr'
          subst hr'
          simp

theorem knot_scan_all_seen {ι : Type} [DecidableEq ι] :
    ∀ (boxRefs refs : List (NBRef ι)) (seen : List ι),
      (∀ r ∈ boxRefs, r.over ∈ seen) →
      knot_scan boxRefs refs seen = (refs, seen, false) := by
  intro boxRefs
  induction boxRefs with
  | nil => intro refs seen _; rw [knot_scan]
  | cons ref rest ih =>
    intro refs seen h
    rw [knot_scan]
    have : ref.over ∈ seen := h ref (by simp)
    simp only [this, if_true]
    exact ih _ _ (fun r hr => h r (by simp [hr]))

theorem link_knot_loop_post {ι τ : Type} [DecidableEq ι]
    (relink : List (NBRef ι) × τ → List (NBRef ι) × τ) :
    ∀ (fuel : Nat) (refs : List (NBRef ι)) (seen : List ι) (s : List (NBRef ι) × τ)
      (refs2 : List (NBRef ι)) (seen2 : List ι) (s2 : List (NBRef ι) × τ),
      link_knot_loop relink fuel refs seen s = some (refs2, seen2, s2) →
      (∀ r ∈ refs, r.over ∈ seen) →
      s2.1 = refs2 ∧ ∀ r ∈ refs2, r.over ∈ seen2 := by
  intro fuel
  induction fuel with
  | zero => intro refs seen s refs2 seen2 s2 h _; cases h
  | succ n ih =>
    intro refs seen s refs2 seen2 s2 h hinv
    rw [link_knot_loop] at h
    cases hscan : knot_scan s.1 refs seen with
    | mk refsA rest =>
      obtain ⟨seenA, rep⟩ := rest
      rw [hscan] at h
      have hA : ∀ r ∈ refsA, r.over ∈ seenA := knot_scan_inv _ _ _ _ _ _ hscan hinv
      by_cases hrep : rep
      · simp [hrep] at h
        exact ih _ _ _ _ _ _ h hA
      · simp at hrep
        subst hrep
        simp at h
        obtain ⟨h1, h2, h3⟩ := h
        subst h1; subst h2
        constructor
        · rw [← h3]
        · exact hA

/-- C3: (resolve) whenever `resolve_knot` completes, the knot box's row
type is a subset of the iterator's row type — the loop exits only on
`is_subset` and `add_handle` does not change the row; (link) whenever the
`link (Knot)` refinement loop completes, its ref set is a fixed point: one
more scan of the knot box's refs finds nothing new (`repeat` stays false),
so no refs are copied into the iterator box. -/
theorem knot_fixed_points :
    (∀ (σ : Type) (resolveIter : SQLType → σ → σ) (iterTyp : σ → SQLType) (fuel : Nat)
        (typ : SQLType) (handle : Int) (s : σ) (typ2 : SQLType) (s2 : σ),
      resolve_knot resolveIter iterTyp fuel typ handle s = some (typ2, s2) →
      is_subset typ2.box_row (iterTyp s2).box_row = true)
  ∧ (∀ (ι τ : Type) [DecidableEq ι]
        (relink : List (NBRef ι) × τ → List (NBRef ι) × τ) (fuel : Nat)
        (s : List (NBRef ι) × τ) (refs : List (NBRef ι)) (seen : List ι)
        (s2 : List (NBRef ι) × τ),
      link_knot relink fuel s = some (refs, seen, s2) →
      knot_scan s2.1 refs seen = (refs, seen, false)) := by
  constructor
  · intro σ resolveIter iterTyp fuel typ handle s typ2 s2 h
    rw [resolve_knot] at h
    cases hloop : resolve_knot_loop resolveIter iterTyp fuel typ s with
    | none => rw [hloop] at h; cases h
    | some v =>
      obtain ⟨typA, sA⟩ := v
      rw [hloop] at h
      simp at h
      obtain ⟨h1, h2⟩ := h
      subst h1; subst h2
      rw [add_handle_box_row]
      exact resolve_knot_loop_post resolveIter iterTyp fuel typ s typA sA hloop
  · intro ι τ inst relink fuel s refs seen s2 h
    have hpost := link_knot_loop_post relink fuel [] [] s refs seen s2 h (by simp)
    rw [hpost.1]
    exact knot_scan_all_seen _ _ _ hpost.2

/-- C3 witness: a knot whose type already matches its iterator resolves in
one pass, and a knot box with no refs reaches the link fixed point at
once. -/
theorem knot_fixed_points_witness :
    is_subset (SQLType.box "t" (.row [] .empty) []).box_row
        (SQLType.box "t" (.row [] .empty) []).box_row = true
  ∧ knot_scan (([], ()) : List (NBRef Nat) × Unit).1 [] ([] : List Nat)
      = ([], [], false) := by
  constructor
  · exact knot_fixed_points.1 Unit (fun _ s => s) (fun _ => SQLType.box "t" (.row [] .empty) []) 1
      (SQLType.box "t" (.row [] .empty) []) (-1) () (SQLType.box "t" (.row [] .empty) []) ()
      (by simp [resolve_knot, resolve_knot_loop, is_subset, is_subset_fields,
            SQLType.box_row, add_handle])
  · exact knot_fixed_points.2 Nat Unit id 1 ([], ()) [] [] ([], ())
      (by simp [link_knot, link_knot_loop, knot_scan])

end FunSQL
